import Mathlib

/-!
Verification development for the spectrum ingestion-and-alignment engine of
`plot_tool_web.py` (functions `parse_txt_file` and `merge_txt_files`).

The embedding follows the Python source.  Python `float` values are modelled
by `PyFloat`: a finite value carries its exact rational magnitude (an
abstraction of IEEE float64 that ignores rounding, which no claim depends
on), and the special values `inf`, `-inf`, `nan` are explicit constructors.
Key equality in the join is structural equality of `PyFloat` (pandas `merge`
matches `NaN` keys with each other, unlike Python `==`).  Character-level
helpers (`pyStrip`, `pyFloat?`, lower-casing) model the ASCII fragment of the
corresponding Python behaviour, which is the fragment the files exercise.
-/

namespace PlotTool

/-- An exact rational in canonical form (`den > 0`, fraction reduced),
produced only through `pyRatMk`.  Structural equality of canonical forms
coincides with rational equality, which is how join keys are compared. -/
structure PyRat where
  num : ℤ
  den : ℕ
deriving DecidableEq, Repr

/-- Canonical rational `n / d` (callers only pass `d > 0`). -/
def pyRatMk (n : ℤ) (d : ℕ) : PyRat :=
  let g := Nat.gcd n.natAbs d
  if g = 0 then ⟨0, 1⟩ else ⟨n / (g : ℤ), d / g⟩

/-- Model of a Python float value: exact rational for finite values plus the
three special values.  `float('nan')`, `float('inf')`, `float('-inf')` are
representable, mirroring that Python `float()` accepts those tokens.  The
exact-rational payload abstracts IEEE float64 by ignoring rounding, which no
claim depends on. -/
inductive PyFloat where
  | finite (q : PyRat)
  | inf
  | neginf
  | nan
deriving DecidableEq, Repr

/-- Whether a `PyFloat` is a finite value (neither `nan` nor an infinity). -/
def PyFloat.isFinite : PyFloat → Bool
  | .finite _ => true
  | _ => false

/-- Whitespace characters stripped by Python `str.strip()` (ASCII fragment). -/
def pyIsSpace (c : Char) : Bool :=
  c = ' ' || c = '\t' || c = '\n' || c = '\r' || c = '\x0b' || c = '\x0c'

/-- `str.strip()` on a character list: drop whitespace at both ends. -/
def pyStripList (l : List Char) : List Char :=
  ((l.dropWhile pyIsSpace).reverse.dropWhile pyIsSpace).reverse

/-- `str.strip()`. -/
def pyStrip (s : String) : String := String.mk (pyStripList s.toList)

/-- Tail of a Python digit-part after its first digit: digits with single
underscores allowed between digits (`digit (['_'] digit)*`). -/
def dpTail : List Char → Bool
  | [] => true
  | c :: rest =>
    if c = '_' then
      match rest with
      | [] => false
      | d :: rest2 => d.isDigit && dpTail rest2
    else c.isDigit && dpTail rest

/-- A valid Python `digitpart`: nonempty, starts and ends with a digit,
single underscores only between digits. -/
def validDigitpart (l : List Char) : Bool :=
  match l with
  | [] => false
  | d :: rest => d.isDigit && dpTail rest

/-- Numeric value of a digit-part, ignoring underscores. -/
def digitsVal (l : List Char) : ℕ :=
  l.foldl (fun acc c => if c = '_' then acc else acc * 10 + (c.toNat - 48)) 0

/-- Number of digits of a digit-part (underscores not counted). -/
def digitCount (l : List Char) : ℕ := (l.filter (fun c => c != '_')).length

/-- Split a character list at the first character satisfying `p`
(separator removed); `none` if no character satisfies `p`. -/
def splitAtFirst (p : Char → Bool) : List Char → Option (List Char × List Char)
  | [] => none
  | c :: rest =>
    if p c then some ([], rest)
    else
      match splitAtFirst p rest with
      | none => none
      | some (a, b) => some (c :: a, b)

/-- Digits of the mantissa of a Python float literal (no sign, no exponent):
`digitpart`, `digitpart '.' [digitpart]`, or `'.' digitpart`.  Returns the
digit string read as an integer together with the number of fractional
digits, so the mantissa value is `fst / 10 ^ snd`. -/
def mantissaVal (man : List Char) : Option (ℕ × ℕ) :=
  match splitAtFirst (fun c => c = '.') man with
  | none => if validDigitpart man then some (digitsVal man, 0) else none
  | some (ip, fp) =>
    if (ip.isEmpty || validDigitpart ip) && (fp.isEmpty || validDigitpart fp)
        && !(ip.isEmpty && fp.isEmpty) then
      some (digitsVal ip * 10 ^ digitCount fp + digitsVal fp, digitCount fp)
    else none

/-- The value `(-1)^neg * mant / 10^fracLen * 10^e` in canonical form. -/
def pyRatVal (neg : Bool) (mant fracLen : ℕ) (e : ℤ) : PyRat :=
  let n : ℤ := if neg then -(mant : ℤ) else (mant : ℤ)
  match e with
  | .ofNat k => pyRatMk (n * (10 : ℤ) ^ k) (10 ^ fracLen)
  | .negSucc k => pyRatMk n (10 ^ fracLen * 10 ^ (k + 1))

/-- Value of the exponent part of a Python float literal
(after the `e`): optional sign then a digit-part. -/
def exponentVal (l : List Char) : Option ℤ :=
  let sgn : Bool × List Char :=
    match l with
    | '+' :: r => (false, r)
    | '-' :: r => (true, r)
    | r => (false, r)
  if validDigitpart sgn.2 then
    some (if sgn.1 then -(digitsVal sgn.2 : ℤ) else (digitsVal sgn.2 : ℤ))
  else none

/-- Python `float(s)`: strip whitespace, optional sign, then `inf`,
`infinity`, `nan` (case-insensitive) or a decimal literal with optional
exponent.  Returns `none` where Python raises `ValueError`.  (Exact-rational
abstraction: string overflow such as `1e999`, which Python turns into `inf`,
stays finite here; no claim depends on that corner.) -/
def pyFloat? (s : String) : Option PyFloat :=
  let t := pyStripList s.toList
  let sgn : Bool × List Char :=
    match t with
    | '+' :: r => (false, r)
    | '-' :: r => (true, r)
    | r => (false, r)
  let neg := sgn.1
  let u := sgn.2
  let low := u.map Char.toLower
  if low = "inf".toList || low = "infinity".toList then
    some (if neg then PyFloat.neginf else PyFloat.inf)
  else if low = "nan".toList then some PyFloat.nan
  else
    match splitAtFirst (fun c => c = 'e' || c = 'E') u with
    | none =>
      match mantissaVal u with
      | none => none
      | some m => some (.finite (pyRatVal neg m.1 m.2 0))
    | some (man, ex) =>
      match mantissaVal man, exponentVal ex with
      | some m, some e => some (.finite (pyRatVal neg m.1 m.2 e))
      | _, _ => none

/-- Whether `needle` occurs as a contiguous sub-list of `hay`. -/
def listInfix (needle : List Char) : List Char → Bool
  | [] => needle.isEmpty
  | c :: rest => needle.isPrefixOf (c :: rest) || listInfix needle rest

/-- Substring test, modelling Python `needle in hay` on strings. -/
def strContains (hay needle : String) : Bool :=
  listInfix needle.toList hay.toList

/-- Python `str.lower()` (ASCII fragment; sufficient here because the only
needle compared against a lowered string is pure ASCII). -/
def pyLower (s : String) : String := String.mk (s.toList.map Char.toLower)

/-- Split a character list at every occurrence of `sep` (single-character
Python `str.split(sep)`; the source only splits on `'\n'` and `','`). -/
def splitOnChar (sep : Char) : List Char → List (List Char)
  | [] => [[]]
  | c :: rest =>
    let r := splitOnChar sep rest
    if c = sep then [] :: r
    else
      match r with
      | [] => [[c]]
      | h :: t => (c :: h) :: t

/-- Python `s.split(sep)` for a one-character separator. -/
def pySplit (sep : Char) (s : String) : List String :=
  (splitOnChar sep s.toList).map String.mk

/-- The header test of `parse_txt_file` line 49, exactly as coded:
`'波长' in line or 'Wavelength' in line.lower()`.  Note the second disjunct
compares the mixed-case needle `"Wavelength"` against a lower-cased line. -/
def headerLine (line : String) : Bool :=
  strContains line "波长" || strContains (pyLower line) "Wavelength"

/-- Index of the first header line (`data_start_idx - 1` in the source);
`none` models `data_start_idx == -1`. -/
def findHeader (lines : List String) : Option ℕ := lines.findIdx? headerLine

/-- A pandas DataFrame, row-major: value-column names plus rows, each row a
key (`Wavelength`) paired with the value-cell list aligned with `names`. -/
structure DataFrame where
  names : List String
  rows : List (PyFloat × List PyFloat)
deriving DecidableEq, Repr

/-- The key (`Wavelength`) column of a DataFrame. -/
def keyColumn (df : DataFrame) : List PyFloat := df.rows.map Prod.fst

/-- Lines 59-69 of the source, for one line: strip; require nonempty and a
comma; split on comma; require at least two fields; parse fields 0 and 1 as
floats; yield the point or skip the line. -/
def lineToPoint (line : String) : Option (PyFloat × PyFloat) :=
  let s := pyStrip line
  if s = "" then none
  else if strContains s "," then
    let parts := pySplit ',' s
    if 2 ≤ parts.length then
      match pyFloat? (parts.getD 0 ""), pyFloat? (parts.getD 1 "") with
      | some x, some y => some (x, y)
      | _, _ => none
    else none
  else none

/-- Lines 44-77 of the source, after decoding: split into lines, locate the
header, extract the data lines after it, fail if none parsed, otherwise
build the two-column `['Wavelength', 'Absorbance']` DataFrame. -/
def parseContent (content : String) : Option DataFrame :=
  let lines := pySplit '\n' content
  match findHeader lines with
  | none => none
  | some idx =>
    let pts := (lines.drop (idx + 1)).filterMap lineToPoint
    if pts = [] then none
    else some ⟨["Absorbance"], pts.map fun p => (p.1, [p.2])⟩

/-- The fixed candidate encoding list of line 29. -/
def encodings : List String := ["gbk", "utf-8", "gb2312", "utf-16"]

/-- Lines 32-38: try each encoding in order on the byte buffer, returning
the first successful decode; `none` if every candidate fails.  The decoders
themselves are the Python codecs, passed in abstractly as `dec`. -/
def tryDecode (dec : String → List ℕ → Option String) :
    List String → List ℕ → Option String
  | [], _ => none
  | e :: rest, b =>
    match dec e b with
    | some s => some s
    | none => tryDecode dec rest b

/-- A raw upload: declared name plus byte buffer. -/
structure RawUpload where
  name : String
  bytes : List ℕ
deriving DecidableEq, Repr

/-- `parse_txt_file` (lines 22-81): decode then parse; `none` models every
`return None` path (decode failure, no header, no valid data rows). -/
def parse_txt_file (dec : String → List ℕ → Option String) (u : RawUpload) :
    Option DataFrame :=
  match tryDecode dec encodings u.bytes with
  | none => none
  | some content => parseContent content

/-- Index of the last occurrence of `c` in `l`. -/
def lastIdxOf (c : Char) : List Char → Option ℕ
  | [] => none
  | a :: rest =>
    match lastIdxOf c rest with
    | some i => some (i + 1)
    | none => if a = c then some 0 else none

/-- `os.path.splitext(name)[0]` (POSIX): cut at the last dot that lies after
the last separator, unless every character between them is a dot. -/
def splitextRoot (name : String) : String :=
  let l := name.toList
  let base : ℕ :=
    match lastIdxOf '/' l with
    | some i => i + 1
    | none => 0
  match lastIdxOf '.' l with
  | none => name
  | some d =>
    if base ≤ d then
      if ((l.drop base).take (d - base)).any (fun c => c != '.') then
        String.mk (l.take d)
      else name
    else name

/-- pandas suffix rule for `pd.merge(..., on='Wavelength')`: a value-column
name present in both frames gets `_x` on the left and `_y` on the right. -/
def mergeNames (ln rn : List String) : List String :=
  (ln.map fun n => if n ∈ rn then n ++ "_x" else n) ++
  (rn.map fun n => if n ∈ ln then n ++ "_y" else n)

/-- pandas inner join on the key, row level: for each left row in order,
each right row with an equal key in order, concatenating the value cells
(`how='inner'` preserves left-key order). -/
def joinRows (lrows rrows : List (PyFloat × List PyFloat)) :
    List (PyFloat × List PyFloat) :=
  lrows.flatMap fun lr =>
    (rrows.filter fun rr => decide (rr.1 = lr.1)).map fun rr => (lr.1, lr.2 ++ rr.2)

/-- `pd.merge(left, right, on='Wavelength', how='inner')` on the inputs
where pandas does not raise.  The raising paths of `pd.merge` (duplicate
`'Wavelength'` label, suffix-induced duplicate columns) are modelled
separately by `mergeStepExc`, which returns this value exactly when no
exception fires. -/
def pdMerge (l r : DataFrame) : DataFrame :=
  ⟨mergeNames l.names r.names, joinRows l.rows r.rows⟩

/-- Line 114: `df_temp.columns = ['Wavelength', file_names[idx]]` — rename
the single value column of a parsed frame. -/
def renameCols (n : String) (df : DataFrame) : DataFrame := ⟨[n], df.rows⟩

/-- Line 108: `dfs[0][['Wavelength']].copy()` — the key column of the first
parsed frame, with no value columns. -/
def seedOf (df : DataFrame) : DataFrame := ⟨[], df.rows.map fun r => (r.1, [])⟩

/-- One iteration of the loop at lines 111-115: rename the incoming frame's
value column to its file name and inner-merge it into the accumulator. -/
def mergeStep (acc : DataFrame) (nd : String × DataFrame) : DataFrame :=
  pdMerge acc (renameCols nd.1 nd.2)

/-- Lines 93-102: the per-upload parse results that survive, paired with
their extension-stripped file names, in upload order (`file_names`/`dfs`). -/
def parsedList (dec : String → List ℕ → Option String) (us : List RawUpload) :
    List (String × DataFrame) :=
  us.filterMap fun u => (parse_txt_file dec u).map fun df => (splitextRoot u.name, df)

/-- Lines 104-117: `None` when no file parsed, otherwise the fold of inner
merges over every parsed frame, seeded with the first frame's key column. -/
def alignParsed (l : List (String × DataFrame)) : Option DataFrame :=
  match l with
  | [] => none
  | (_, df0) :: _ => some (l.foldl mergeStep (seedOf df0))

/-- `merge_txt_files` (lines 84-117): parse every upload, keep the
successes with their extension-stripped names, return `None` when nothing
parses, otherwise fold an inner merge over all parsed frames starting from
the first frame's key column.  (Total model of the non-raising region; for
the exceptions `pd.merge` itself can raise, see `merge_txt_files_exc`.) -/
def merge_txt_files (dec : String → List ℕ → Option String)
    (uploaded : List RawUpload) : Option DataFrame :=
  if uploaded = [] then none
  else alignParsed (parsedList dec uploaded)

/-- Exceptions `pd.merge` can raise inside `merge_txt_files` (which has no
try/except, so they propagate out of the function). -/
inductive PdRaise where
  | duplicateLabel
  | duplicateSuffixColumns
deriving DecidableEq, Repr

/-- One loop iteration of lines 111-115 with the raising paths of
`pd.merge` made explicit: a frame whose labels are not unique — the rename
of line 114 duplicates `'Wavelength'` when the derived file name is
`Wavelength`, and an accumulator value column labelled `Wavelength` clashes
with the key — raises `ValueError: The column label 'Wavelength' is not
unique.`; a merge whose suffixed output carries duplicate value-column
labels raises `MergeError` (pandas >= 2).  Otherwise the merge returns the
`mergeStep` frame. -/
def mergeStepExc (acc : DataFrame) (nd : String × DataFrame) :
    Except PdRaise DataFrame :=
  if nd.1 = "Wavelength" ∨ "Wavelength" ∈ acc.names then .error .duplicateLabel
  else if (mergeNames acc.names [nd.1]).Nodup then .ok (mergeStep acc nd)
  else .error .duplicateSuffixColumns

/-- Lines 104-117 with exceptions: the fold of `mergeStepExc`, propagating
the first raise; `ok none` models the `return None` of line 105. -/
def alignParsedExc (l : List (String × DataFrame)) :
    Except PdRaise (Option DataFrame) :=
  match l with
  | [] => .ok none
  | (_, df0) :: _ => (l.foldlM mergeStepExc (seedOf df0)).map some

/-- `merge_txt_files` with the exceptions `pd.merge` can raise made
explicit (`error` models an exception propagating out of the function). -/
def merge_txt_files_exc (dec : String → List ℕ → Option String)
    (uploaded : List RawUpload) : Except PdRaise (Option DataFrame) :=
  if uploaded = [] then .ok none
  else alignParsedExc (parsedList dec uploaded)

/-- The spectra that survive parsing, in upload order. -/
def survivors (dec : String → List ℕ → Option String) (us : List RawUpload) :
    List DataFrame :=
  us.filterMap (parse_txt_file dec)

/-- The extension-stripped names of the surviving uploads, in order. -/
def survivorNames (dec : String → List ℕ → Option String) (us : List RawUpload) :
    List String :=
  us.filterMap fun u => (parse_txt_file dec u).map fun _ => splitextRoot u.name

/-- Position of the first occurrence of `k` in `l` (length of `l` if absent);
used to speak about the relative order of key values in the seed column. -/
def keyIdx (l : List PyFloat) (k : PyFloat) : ℕ :=
  match l with
  | [] => 0
  | a :: rest => if a = k then 0 else keyIdx rest k + 1

/-- The claim's wording of a valid data line: after trimming whitespace it
is non-empty, contains a comma, splits on comma into at least two fields,
and fields 0 and 1 both parse as Python floats. -/
def validLineSpec (line : String) : Prop :=
  pyStrip line ≠ "" ∧
  strContains (pyStrip line) "," = true ∧
  2 ≤ (pySplit ',' (pyStrip line)).length ∧
  (pyFloat? ((pySplit ',' (pyStrip line)).getD 0 "")).isSome = true ∧
  (pyFloat? ((pySplit ',' (pyStrip line)).getD 1 "")).isSome = true

/-- Concrete decoded file contents indexed by byte buffer, for witnesses. -/
def demoContents (b : List ℕ) : Option String :=
  if b = [0] then some "波长,吸收值\n400,0.12\n410,0.15"
  else if b = [1] then some "波长,吸收值\n400,0.20\n420,0.30"
  else if b = [2] then some "波长\n500,0.2"
  else if b = [3] then some "波长\n400,0.1"
  else none

/-- Concrete decoder family for witnesses: only the `utf-8` codec succeeds,
and only on the buffers `demoContents` knows. -/
def demoDec (e : String) (b : List ℕ) : Option String :=
  if e = "utf-8" then demoContents b else none

/-- Two-upload batch of the spec's Scenario A. -/
def usA : List RawUpload := [⟨"file1.txt", [0]⟩, ⟨"file2.txt", [1]⟩]

/-- The aligned table `merge_txt_files demoDec usA` evaluates to. -/
def dfA : DataFrame :=
  ⟨["file1", "file2"], [(.finite ⟨400, 1⟩, [.finite ⟨3, 25⟩, .finite ⟨1, 5⟩])]⟩

/-- The parse result of the first upload of `usA`. -/
def s0A : DataFrame :=
  ⟨["Absorbance"], [(.finite ⟨400, 1⟩, [.finite ⟨3, 25⟩]),
                    (.finite ⟨410, 1⟩, [.finite ⟨3, 20⟩])]⟩

/-- The parse result of the second upload of `usA`. -/
def s1A : DataFrame :=
  ⟨["Absorbance"], [(.finite ⟨400, 1⟩, [.finite ⟨1, 5⟩]),
                    (.finite ⟨420, 1⟩, [.finite ⟨3, 10⟩])]⟩

/-- A decoded file with two valid data lines and two junk lines between. -/
def contentB : String := "波长\n400,0.1\nbad\n\n410,0.2"

/-! ### Structural lemmas about the join and the pipeline -/

lemma keyColumn_seedOf (df : DataFrame) : keyColumn (seedOf df) = keyColumn df := by
  simp [keyColumn, seedOf, List.map_map, Function.comp]

lemma mem_map_fst_joinRows (lrows rrows : List (PyFloat × List PyFloat)) (k : PyFloat) :
    k ∈ (joinRows lrows rrows).map Prod.fst ↔
      k ∈ lrows.map Prod.fst ∧ k ∈ rrows.map Prod.fst := by
  simp only [joinRows, List.map_flatMap, List.mem_flatMap, List.map_map, List.mem_map,
    List.mem_filter, Function.comp, decide_eq_true_eq]
  aesop

lemma mem_keyColumn_pdMerge (l r : DataFrame) (k : PyFloat) :
    k ∈ keyColumn (pdMerge l r) ↔ k ∈ keyColumn l ∧ k ∈ keyColumn r :=
  mem_map_fst_joinRows l.rows r.rows k

lemma mem_keyColumn_foldl (l : List (String × DataFrame)) (acc : DataFrame) (k : PyFloat) :
    k ∈ keyColumn (l.foldl mergeStep acc) ↔
      k ∈ keyColumn acc ∧ ∀ nd ∈ l, k ∈ keyColumn nd.2 := by
  induction l generalizing acc with
  | nil => simp
  | cons nd rest ih =>
    rw [List.foldl_cons, ih]
    have hstep : k ∈ keyColumn (mergeStep acc nd) ↔
        k ∈ keyColumn acc ∧ k ∈ keyColumn nd.2 :=
      mem_keyColumn_pdMerge acc (renameCols nd.1 nd.2) k
    rw [hstep]
    simp [List.forall_mem_cons, and_assoc]

lemma parsedList_map_snd (dec : String → List ℕ → Option String) (us : List RawUpload) :
    (parsedList dec us).map Prod.snd = survivors dec us := by
  induction us with
  | nil => rfl
  | cons u rest ih =>
    simp only [parsedList, survivors, List.filterMap_cons] at *
    cases h : parse_txt_file dec u <;> simp [h, ih]

lemma parsedList_map_fst (dec : String → List ℕ → Option String) (us : List RawUpload) :
    (parsedList dec us).map Prod.fst = survivorNames dec us := by
  induction us with
  | nil => rfl
  | cons u rest ih =>
    simp only [parsedList, survivorNames, List.filterMap_cons] at *
    cases h : parse_txt_file dec u <;> simp [h, ih]

lemma merge_eq_alignParsed (dec : String → List ℕ → Option String)
    (us : List RawUpload) :
    merge_txt_files dec us = alignParsed (parsedList dec us) := by
  by_cases h : us = []
  · subst h; rfl
  · simp [merge_txt_files, h]

lemma mem_keyColumn_merge (dec : String → List ℕ → Option String)
    (us : List RawUpload) (df : DataFrame) (k : PyFloat)
    (h : merge_txt_files dec us = some df) :
    k ∈ keyColumn df ↔ ∀ s ∈ survivors dec us, k ∈ keyColumn s := by
  rw [merge_eq_alignParsed] at h
  rcases hp : parsedList dec us with _ | ⟨⟨n0, df0⟩, rest⟩
  · rw [hp] at h; exact absurd h (by simp [alignParsed])
  · rw [hp] at h
    simp only [alignParsed, Option.some.injEq] at h
    have hsurv : survivors dec us = df0 :: rest.map Prod.snd := by
      rw [← parsedList_map_snd, hp]; rfl
    rw [← h, hsurv, mem_keyColumn_foldl]
    simp only [keyColumn_seedOf, List.forall_mem_cons, List.forall_mem_map]
    tauto

lemma names_mergeStep (acc : DataFrame) (nd : String × DataFrame)
    (h1 : nd.1 ∉ acc.names) :
    (mergeStep acc nd).names = acc.names ++ [nd.1] := by
  have hl : acc.names.map (fun n => if n ∈ [nd.1] then n ++ "_x" else n) = acc.names := by
    have heq : acc.names.map (fun n => if n ∈ [nd.1] then n ++ "_x" else n) =
        acc.names.map id := by
      refine List.map_congr_left fun a ha => ?_
      have hne : a ≠ nd.1 := fun e => h1 (e ▸ ha)
      simp [hne]
    simpa using heq
  have hr : [nd.1].map (fun n => if n ∈ acc.names then n ++ "_y" else n) = [nd.1] := by
    simp [h1]
  show mergeNames acc.names [nd.1] = acc.names ++ [nd.1]
  unfold mergeNames
  rw [hl, hr]

lemma names_foldl (l : List (String × DataFrame)) (acc : DataFrame)
    (h : (acc.names ++ l.map Prod.fst).Nodup) :
    (l.foldl mergeStep acc).names = acc.names ++ l.map Prod.fst := by
  induction l generalizing acc with
  | nil => simp
  | cons nd rest ih =>
    have hnotin : nd.1 ∉ acc.names := by
      rw [List.nodup_append] at h
      exact fun hin => h.2.2 hin (by simp)
    have hstep := names_mergeStep acc nd hnotin
    rw [List.foldl_cons, ih (mergeStep acc nd) (by simpa [hstep, List.append_assoc] using h),
      hstep, List.append_assoc]
    simp

lemma foldlM_mergeStepExc (l : List (String × DataFrame)) (acc : DataFrame)
    (h : (acc.names ++ l.map Prod.fst).Nodup)
    (hW : "Wavelength" ∉ acc.names ++ l.map Prod.fst) :
    l.foldlM mergeStepExc acc = Except.ok (l.foldl mergeStep acc) := by
  induction l generalizing acc with
  | nil => rfl
  | cons nd rest ih =>
    have hndin : nd.1 ∉ acc.names := by
      rw [List.nodup_append] at h
      exact fun hin => h.2.2 hin (by simp)
    have hguard : ¬ (nd.1 = "Wavelength" ∨ "Wavelength" ∈ acc.names) := by
      push_neg
      constructor
      · intro e
        exact hW (List.mem_append_right _ (by simp [← e]))
      · intro hin
        exact hW (List.mem_append_left _ hin)
    have hstep := names_mergeStep acc nd hndin
    have hnodup2 : (mergeNames acc.names [nd.1]).Nodup := by
      have hmn : (mergeStep acc nd).names = mergeNames acc.names [nd.1] := rfl
      rw [← hmn, hstep]
      refine List.Nodup.sublist ?_ h
      exact List.Sublist.append_left (List.Sublist.cons₂ nd.1 (List.nil_sublist _)) _
    have hrec := ih (mergeStep acc nd)
      (by simpa [hstep, List.append_assoc] using h)
      (by simpa [hstep, List.append_assoc] using hW)
    simp only [List.foldlM_cons, mergeStepExc, if_neg hguard, if_pos hnodup2,
      List.foldl_cons]
    simpa using hrec

lemma pairwise_keyIdx_self (l : List PyFloat) (h : l.Nodup) :
    l.Pairwise fun a b => keyIdx l a ≤ keyIdx l b := by
  induction l with
  | nil => simp
  | cons x xs ih =>
    obtain ⟨hx, hnd⟩ := List.nodup_cons.mp h
    rw [List.pairwise_cons]
    constructor
    · intro b _
      simp [keyIdx]
    · refine List.Pairwise.imp_of_mem ?_ (ih hnd)
      intro a b ha hb hab
      have hax : x ≠ a := fun e => hx (e ▸ ha)
      have hbx : x ≠ b := fun e => hx (e ▸ hb)
      simpa [keyIdx, hax, hbx] using hab

lemma pairwise_map_fst_joinRows (R : PyFloat → PyFloat → Prop) (hrefl : ∀ k, R k k)
    (lrows rrows : List (PyFloat × List PyFloat))
    (h : (lrows.map Prod.fst).Pairwise R) :
    ((joinRows lrows rrows).map Prod.fst).Pairwise R := by
  induction lrows with
  | nil => simp [joinRows]
  | cons lr rest ih =>
    rw [List.map_cons, List.pairwise_cons] at h
    obtain ⟨hhead, htail⟩ := h
    have hsplit : joinRows (lr :: rest) rrows =
        ((rrows.filter fun rr => decide (rr.1 = lr.1)).map fun rr => (lr.1, lr.2 ++ rr.2))
          ++ joinRows rest rrows := by
      simp [joinRows]
    rw [hsplit, List.map_append, List.pairwise_append]
    refine ⟨?_, ih htail, ?_⟩
    · refine List.pairwise_of_forall_mem_list ?_
      intro a ha b hb
      simp only [List.map_map, List.mem_map, Function.comp] at ha hb
      obtain ⟨_, _, rfl⟩ := ha
      obtain ⟨_, _, rfl⟩ := hb
      exact hrefl _
    · intro a ha b hb
      simp only [List.map_map, List.mem_map, Function.comp] at ha
      obtain ⟨_, _, rfl⟩ := ha
      have hb2 := (mem_map_fst_joinRows rest rrows b).mp hb
      exact hhead b hb2.1

lemma pairwise_keyColumn_foldl (R : PyFloat → PyFloat → Prop) (hrefl : ∀ k, R k k)
    (l : List (String × DataFrame)) (acc : DataFrame)
    (h : (keyColumn acc).Pairwise R) :
    (keyColumn (l.foldl mergeStep acc)).Pairwise R := by
  induction l generalizing acc with
  | nil => exact h
  | cons nd rest ih =>
    rw [List.foldl_cons]
    exact ih _ (pairwise_map_fst_joinRows R hrefl acc.rows (renameCols nd.1 nd.2).rows h)

lemma length_filterMap_eq_countP {α β : Type} (f : α → Option β) (l : List α) :
    (l.filterMap f).length = l.countP fun a => (f a).isSome := by
  induction l with
  | nil => rfl
  | cons a rest ih =>
    cases h : f a <;> simp [List.filterMap_cons, h, List.countP_cons, ih]

lemma tryDecode_first_success (dec : String → List ℕ → Option String) (b : List ℕ)
    (pre post : List String) (e s : String)
    (hpre : ∀ e2 ∈ pre, dec e2 b = none) (he : dec e b = some s) :
    tryDecode dec (pre ++ e :: post) b = some s := by
  induction pre with
  | nil => simp [tryDecode, he]
  | cons p rest ih =>
    have hp : dec p b = none := hpre p (by simp)
    simp only [List.cons_append, tryDecode, hp]
    exact ih fun e2 h2 => hpre e2 (by simp [h2])

lemma tryDecode_all_fail (dec : String → List ℕ → Option String) (encs : List String)
    (b : List ℕ) (h : ∀ e ∈ encs, dec e b = none) :
    tryDecode dec encs b = none := by
  induction encs with
  | nil => rfl
  | cons p rest ih =>
    simp only [tryDecode, h p (by simp)]
    exact ih fun e he => h e (by simp [he])

lemma parsedList_eraseIdx (dec : String → List ℕ → Option String)
    (us : List RawUpload) (i : ℕ) (hi : i < us.length)
    (hp : parse_txt_file dec (us.get ⟨i, hi⟩) = none) :
    parsedList dec (us.eraseIdx i) = parsedList dec us := by
  induction us generalizing i with
  | nil => cases hi
  | cons u rest ih =>
    cases i with
    | zero =>
      have hu : parse_txt_file dec u = none := hp
      simp [parsedList, List.filterMap_cons, hu]
    | succ j =>
      have hj : j < rest.length := Nat.lt_of_succ_lt_succ hi
      have hp2 : parse_txt_file dec (rest.get ⟨j, hj⟩) = none := hp
      have := ih j hj hp2
      simp only [List.eraseIdx_cons_succ, parsedList, List.filterMap_cons] at *
      cases h : parse_txt_file dec u <;> simp [h, this]

lemma parseContent_eq (content : String) (idx : ℕ)
    (h : findHeader (pySplit '\n' content) = some idx) :
    parseContent content =
      (if ((pySplit '\n' content).drop (idx + 1)).filterMap lineToPoint = [] then none
       else some ⟨["Absorbance"],
         (((pySplit '\n' content).drop (idx + 1)).filterMap lineToPoint).map
           fun p => (p.1, [p.2])⟩) := by
  simp only [parseContent, h]

lemma lineToPoint_isSome_iff (line : String) :
    (lineToPoint line).isSome = true ↔ validLineSpec line := by
  unfold lineToPoint validLineSpec
  by_cases h1 : pyStrip line = ""
  · simp [h1]
  · rw [if_neg h1]
    cases h2 : strContains (pyStrip line) ","
    · simp [h2]
    · simp only [h2, if_true]
      by_cases h3 : 2 ≤ (pySplit ',' (pyStrip line)).length
      · rw [if_pos h3]
        cases hx : pyFloat? ((pySplit ',' (pyStrip line)).getD 0 "") <;>
          cases hy : pyFloat? ((pySplit ',' (pyStrip line)).getD 1 "") <;>
          simp [hx, hy, h1, h3]
      · rw [if_neg h3]
        simp [h1, h3]

/-! ### Claim theorems -/

/-- Claim C1: whenever alignment succeeds, every key value in the output
table's key column appears among the x-values of every surviving input
spectrum, and every key value present in all surviving spectra appears in
the output key column (strict inner-join semantics). -/
theorem C1_inner_join_correct (dec : String → List ℕ → Option String)
    (us : List RawUpload) (df : DataFrame)
    (h : merge_txt_files dec us = some df) :
    (∀ k ∈ keyColumn df, ∀ s ∈ survivors dec us, k ∈ keyColumn s) ∧
    (∀ k, (∀ s ∈ survivors dec us, k ∈ keyColumn s) → k ∈ keyColumn df) := by
  constructor
  · intro k hk s hs
    exact (mem_keyColumn_merge dec us df k h).mp hk s hs
  · intro k hk
    exact (mem_keyColumn_merge dec us df k h).mpr hk

/-- Witness for C1 at the Scenario A batch `usA`. -/
theorem C1_inner_join_correct_witness :
    (∀ k ∈ keyColumn dfA, ∀ s ∈ survivors demoDec usA, k ∈ keyColumn s) ∧
    (∀ k, (∀ s ∈ survivors demoDec usA, k ∈ keyColumn s) → k ∈ keyColumn dfA) :=
  C1_inner_join_correct demoDec usA dfA (by decide)

/-- Claim C2 (code bug): the header test `'Wavelength' in line.lower()`
compares a mixed-case needle against a lower-cased line, so the English
branch never matches: a file whose header line contains only the English
word `Wavelength` is rejected with the no-header failure, while the same
data under a `波长` header parses. -/
theorem C2_english_header_rejected :
    parseContent "Wavelength,Absorbance\n400,0.1\n410,0.2" = none ∧
    headerLine "Wavelength,Absorbance" = false ∧
    headerLine "WAVELENGTH" = false ∧
    headerLine "wavelength" = false ∧
    parseContent "波长,吸收值\n400,0.1\n410,0.2" =
      some ⟨["Absorbance"], [(.finite ⟨400, 1⟩, [.finite ⟨1, 10⟩]),
                             (.finite ⟨410, 1⟩, [.finite ⟨1, 5⟩])]⟩ :=
  ⟨by decide, by decide, by decide, by decide, by decide⟩

/-- Counterexample to Claim C3: on two spectra with disjoint wavelength
grids, `merge_txt_files` does not fail — it returns a table whose key
column is empty. -/
theorem C3_counterexample :
    merge_txt_files demoDec [⟨"f1.txt", [3]⟩, ⟨"f2.txt", [2]⟩] =
      some ⟨["f1", "f2"], []⟩ ∧
    merge_txt_files demoDec [⟨"f1.txt", [3]⟩, ⟨"f2.txt", [2]⟩] ≠ none :=
  ⟨by decide, by decide⟩

/-- The raise path is reachable: a surviving upload named `Wavelength.txt`
makes the merge raise the duplicate-label error instead of returning. -/
lemma merge_exc_duplicate_label_example :
    merge_txt_files_exc demoDec [⟨"Wavelength.txt", [3]⟩] =
      .error .duplicateLabel := by
  rfl

/-- Claim C3 as amended: if any join step leaves zero rows, alignment does
not fail with an error — provided the surviving derived names are pairwise
distinct and none equals `Wavelength` (the label conditions under which
`pd.merge` itself raises, for reasons unrelated to the empty intersection),
`merge_txt_files` raises nothing and returns a table, whose key column is
empty exactly when no key is shared by all surviving spectra.  No
`AlignError` for an empty intersection exists in the code. -/
theorem C3_empty_join_returns_table (dec : String → List ℕ → Option String)
    (us : List RawUpload) (h : survivors dec us ≠ [])
    (hW : "Wavelength" ∉ survivorNames dec us)
    (hnd : (survivorNames dec us).Nodup) :
    ∃ df, merge_txt_files_exc dec us = .ok (some df) ∧
      merge_txt_files dec us = some df ∧
      (keyColumn df = [] ↔ ¬ ∃ k, ∀ s ∈ survivors dec us, k ∈ keyColumn s) := by
  have hpl : parsedList dec us ≠ [] := by
    intro he
    apply h
    rw [← parsedList_map_snd, he]
    rfl
  rcases hp : parsedList dec us with _ | ⟨⟨n0, df0⟩, rest⟩
  · exact absurd hp hpl
  · have hnames := parsedList_map_fst dec us
    rw [hp] at hnames
    have hm : merge_txt_files dec us =
        some (((n0, df0) :: rest).foldl mergeStep (seedOf df0)) := by
      rw [merge_eq_alignParsed, hp]
      rfl
    have hfoldM := foldlM_mergeStepExc ((n0, df0) :: rest) (seedOf df0)
      (by rw [show (seedOf df0).names = [] from rfl, List.nil_append, hnames]; exact hnd)
      (by rw [show (seedOf df0).names = [] from rfl, List.nil_append, hnames]; exact hW)
    have hexc : merge_txt_files_exc dec us =
        .ok (some (((n0, df0) :: rest).foldl mergeStep (seedOf df0))) := by
      have hus : us ≠ [] := by
        intro he
        apply hpl
        rw [he]
        rfl
      unfold merge_txt_files_exc
      rw [if_neg hus, hp]
      simp only [alignParsedExc, hfoldM]
      rfl
    refine ⟨_, hexc, hm, ?_⟩
    rw [List.eq_nil_iff_forall_not_mem]
    constructor
    · intro hall hex
      obtain ⟨k, hk⟩ := hex
      exact hall k ((mem_keyColumn_merge dec us _ k hm).mpr hk)
    · intro hne k hk
      exact hne ⟨k, (mem_keyColumn_merge dec us _ k hm).mp hk⟩

/-- Witness for the amended C3 at a disjoint-grid batch with distinct,
non-`Wavelength` derived names. -/
theorem C3_empty_join_returns_table_witness :
    ∃ df, merge_txt_files_exc demoDec [⟨"f1.txt", [3]⟩, ⟨"f2.txt", [2]⟩] =
        .ok (some df) ∧
      merge_txt_files demoDec [⟨"f1.txt", [3]⟩, ⟨"f2.txt", [2]⟩] = some df ∧
      (keyColumn df = [] ↔
        ¬ ∃ k, ∀ s ∈ survivors demoDec [⟨"f1.txt", [3]⟩, ⟨"f2.txt", [2]⟩],
          k ∈ keyColumn s) :=
  C3_empty_join_returns_table demoDec [⟨"f1.txt", [3]⟩, ⟨"f2.txt", [2]⟩]
    (by decide) (by decide) (by decide)

/-- Claim C4: a line after the header contributes a point exactly when the
spec's validity condition holds of it; a file with a located header parses
to exactly as many points as it has valid data lines, wherever the
malformed or empty lines sit, and fails with the no-data error exactly when
that count is zero. -/
theorem C4_per_line_tolerance (content : String) (idx : ℕ)
    (h : findHeader (pySplit '\n' content) = some idx) :
    (∀ l, (lineToPoint l).isSome = true ↔ validLineSpec l) ∧
    (parseContent content = none ↔
      ((pySplit '\n' content).drop (idx + 1)).countP
        (fun l => (lineToPoint l).isSome) = 0) ∧
    (∀ df, parseContent content = some df →
      df.rows.length = ((pySplit '\n' content).drop (idx + 1)).countP
        fun l => (lineToPoint l).isSome) := by
  refine ⟨fun l => lineToPoint_isSome_iff l, ?_, ?_⟩
  · rw [parseContent_eq content idx h, ← length_filterMap_eq_countP]
    by_cases hp : ((pySplit '\n' content).drop (idx + 1)).filterMap lineToPoint = []
    · simp [hp]
    · simp [hp, List.length_eq_zero]
  · intro df hdf
    rw [parseContent_eq content idx h] at hdf
    by_cases hp : ((pySplit '\n' content).drop (idx + 1)).filterMap lineToPoint = []
    · rw [if_pos hp] at hdf
      cases hdf
    · rw [if_neg hp] at hdf
      injection hdf with hdf2
      subst hdf2
      rw [← length_filterMap_eq_countP]
      simp

/-- Witness for C4 at a file with two valid and two junk data lines. -/
theorem C4_per_line_tolerance_witness :
    (∀ l, (lineToPoint l).isSome = true ↔ validLineSpec l) ∧
    (parseContent contentB = none ↔
      ((pySplit '\n' contentB).drop (0 + 1)).countP
        (fun l => (lineToPoint l).isSome) = 0) ∧
    (∀ df, parseContent contentB = some df →
      df.rows.length = ((pySplit '\n' contentB).drop (0 + 1)).countP
        fun l => (lineToPoint l).isSome) :=
  C4_per_line_tolerance contentB 0 (by decide)

/-- Counterexample to Claim C5: Python `float()` accepts `nan`, so a parsed
spectrum can store a point with a non-finite component. -/
theorem C5_counterexample :
    ¬ ∀ (content : String) (df : DataFrame), parseContent content = some df →
        ∀ r ∈ df.rows, r.1.isFinite = true ∧ ∀ y ∈ r.2, y.isFinite = true := by
  intro hall
  have h := hall "波长\nnan,1" ⟨["Absorbance"], [(.nan, [.finite ⟨1, 1⟩])]⟩ (by decide)
  have h2 := (h (.nan, [.finite ⟨1, 1⟩]) (by simp)).1
  simp [PyFloat.isFinite] at h2

/-- Claim C5 as amended: every stored point comes from a data line whose
first two comma fields parse as Python floats — non-numeric or incomplete
lines are never stored — but since the float parser accepts `nan`/`inf`
tokens the components need not be finite. -/
theorem C5_points_from_parsed_lines (content : String) (df : DataFrame)
    (h : parseContent content = some df) :
    df.names = ["Absorbance"] ∧
    ∃ idx, findHeader (pySplit '\n' content) = some idx ∧
      df.rows = (((pySplit '\n' content).drop (idx + 1)).filterMap lineToPoint).map
        fun p => (p.1, [p.2]) := by
  rcases hf : findHeader (pySplit '\n' content) with _ | idx
  · simp only [parseContent, hf] at h
    exact Option.noConfusion h
  · rw [parseContent_eq content idx hf] at h
    by_cases hp : ((pySplit '\n' content).drop (idx + 1)).filterMap lineToPoint = []
    · rw [if_pos hp] at h
      cases h
    · rw [if_neg hp] at h
      injection h with h2
      subst h2
      exact ⟨rfl, idx, by simp [hf], rfl⟩

/-- Witness for the amended C5 at `contentB`. -/
theorem C5_points_from_parsed_lines_witness :
    (⟨["Absorbance"], [(.finite ⟨400, 1⟩, [.finite ⟨1, 10⟩]),
        (.finite ⟨410, 1⟩, [.finite ⟨1, 5⟩])]⟩ : DataFrame).names = ["Absorbance"] ∧
    ∃ idx, findHeader (pySplit '\n' contentB) = some idx ∧
      (⟨["Absorbance"], [(.finite ⟨400, 1⟩, [.finite ⟨1, 10⟩]),
          (.finite ⟨410, 1⟩, [.finite ⟨1, 5⟩])]⟩ : DataFrame).rows =
        (((pySplit '\n' contentB).drop (idx + 1)).filterMap lineToPoint).map
          fun p => (p.1, [p.2]) :=
  C5_points_from_parsed_lines contentB _ (by decide)

/-- Claim C6: decoding tries the fixed ordered candidate list and uses the
first encoding that succeeds; if every candidate fails the file's parse
returns the failure value; and a failing file is skipped without changing
the result for the other files in the batch. -/
theorem C6_decode_order_and_isolation :
    (∀ (dec : String → List ℕ → Option String) (b : List ℕ)
        (pre post : List String) (e s : String),
        encodings = pre ++ e :: post →
        (∀ e2 ∈ pre, dec e2 b = none) → dec e b = some s →
        tryDecode dec encodings b = some s) ∧
    (∀ (dec : String → List ℕ → Option String) (u : RawUpload),
        (∀ e ∈ encodings, dec e u.bytes = none) → parse_txt_file dec u = none) ∧
    (∀ (dec : String → List ℕ → Option String) (us : List RawUpload) (i : ℕ)
        (hi : i < us.length), parse_txt_file dec (us.get ⟨i, hi⟩) = none →
        merge_txt_files dec us = merge_txt_files dec (us.eraseIdx i)) := by
  refine ⟨?_, ?_, ?_⟩
  · intro dec b pre post e s henc hpre he
    rw [henc]
    exact tryDecode_first_success dec b pre post e s hpre he
  · intro dec u hall
    unfold parse_txt_file
    rw [tryDecode_all_fail dec encodings u.bytes hall]
  · intro dec us i hi hp
    rw [merge_eq_alignParsed, merge_eq_alignParsed, parsedList_eraseIdx dec us i hi hp]

/-- Witness for C6: the second candidate (`utf-8`) wins after `gbk` fails,
an undecodable buffer makes the single file fail, and erasing the failing
file leaves the batch result unchanged. -/
theorem C6_decode_order_and_isolation_witness :
    tryDecode demoDec encodings [3] = some "波长\n400,0.1" ∧
    parse_txt_file demoDec ⟨"x.txt", [9]⟩ = none ∧
    merge_txt_files demoDec [⟨"f1.txt", [3]⟩, ⟨"bad.txt", [9]⟩] =
      merge_txt_files demoDec ([⟨"f1.txt", [3]⟩, ⟨"bad.txt", [9]⟩].eraseIdx 1) :=
  ⟨C6_decode_order_and_isolation.1 demoDec [3] ["gbk"] ["gb2312", "utf-16"]
      "utf-8" "波长\n400,0.1" (by decide) (by decide) (by decide),
    C6_decode_order_and_isolation.2.1 demoDec ⟨"x.txt", [9]⟩ (by decide),
    C6_decode_order_and_isolation.2.2 demoDec [⟨"f1.txt", [3]⟩, ⟨"bad.txt", [9]⟩]
      1 (by decide) (by decide)⟩

/-- Counterexample to Claim C7: two uploads whose derived names collide get
pandas suffixes `_x`/`_y`, so the value columns are not named after their
source uploads. -/
theorem C7_counterexample :
    merge_txt_files demoDec [⟨"a.txt", [3]⟩, ⟨"a.txt", [3]⟩] =
      some ⟨["a_x", "a_y"], [(.finite ⟨400, 1⟩, [.finite ⟨1, 10⟩, .finite ⟨1, 10⟩])]⟩ ∧
    survivorNames demoDec [⟨"a.txt", [3]⟩, ⟨"a.txt", [3]⟩] = ["a", "a"] ∧
    (["a_x", "a_y"] : List String) ≠ ["a", "a"] :=
  ⟨by decide, by decide, by decide⟩

/-- Claim C7 as amended: when the derived names of the surviving uploads are
pairwise distinct, the output table has exactly one value column per
surviving spectrum, named, in order, by the upload names with their
extension removed. -/
theorem C7_value_columns (dec : String → List ℕ → Option String)
    (us : List RawUpload) (df : DataFrame)
    (h : merge_txt_files dec us = some df)
    (hnd : (survivorNames dec us).Nodup) :
    df.names = survivorNames dec us ∧
    df.names.length = (survivors dec us).length := by
  rcases hp : parsedList dec us with _ | ⟨⟨n0, df0⟩, rest⟩
  · rw [merge_eq_alignParsed, hp] at h
    exact absurd h (by simp [alignParsed])
  · rw [merge_eq_alignParsed, hp] at h
    simp only [alignParsed, Option.some.injEq] at h
    have hnames := parsedList_map_fst dec us
    rw [hp] at hnames
    have hsnd := parsedList_map_snd dec us
    rw [hp] at hsnd
    have hnd2 : ((seedOf df0).names ++ ((n0, df0) :: rest).map Prod.fst).Nodup := by
      rw [show (seedOf df0).names = [] from rfl, List.nil_append, hnames]
      exact hnd
    have hfold := names_foldl ((n0, df0) :: rest) (seedOf df0) hnd2
    rw [← h]
    constructor
    · rw [hfold, show (seedOf df0).names = [] from rfl, List.nil_append, hnames]
    · rw [hfold, show (seedOf df0).names = [] from rfl, List.nil_append, ← hsnd]
      simp

/-- Witness for the amended C7 at `usA`, whose derived names are distinct. -/
theorem C7_value_columns_witness :
    dfA.names = survivorNames demoDec usA ∧
    dfA.names.length = (survivors demoDec usA).length :=
  C7_value_columns demoDec usA dfA (by decide) (by decide)

/-- Claim C8: the pipeline is a pure function of the upload list — equal
inputs give equal outputs, with no retained state. -/
theorem C8_deterministic (dec : String → List ℕ → Option String)
    (us1 us2 : List RawUpload) (h : us1 = us2) :
    merge_txt_files dec us1 = merge_txt_files dec us2 := by
  rw [h]

/-- Witness for C8 at the Scenario A batch. -/
theorem C8_deterministic_witness :
    merge_txt_files demoDec usA = merge_txt_files demoDec usA :=
  C8_deterministic demoDec usA usA rfl

/-- Claim C9: parsing a single file is total — it returns either the
distinguished failure value or a nonempty two-column
`['Wavelength', 'Absorbance']` table (every row carries exactly one value
cell besides the key). -/
theorem C9_total_parse (dec : String → List ℕ → Option String) (u : RawUpload) :
    parse_txt_file dec u = none ∨
      ∃ df, parse_txt_file dec u = some df ∧ df.names = ["Absorbance"] ∧
        df.rows ≠ [] ∧ ∀ r ∈ df.rows, r.2.length = 1 := by
  unfold parse_txt_file
  cases hd : tryDecode dec encodings u.bytes with
  | none => exact Or.inl rfl
  | some content =>
    show parseContent content = none ∨
      ∃ df, parseContent content = some df ∧ df.names = ["Absorbance"] ∧
        df.rows ≠ [] ∧ ∀ r ∈ df.rows, r.2.length = 1
    rcases hf : findHeader (pySplit '\n' content) with _ | idx
    · left
      simp [parseContent, hf]
    · rw [parseContent_eq content idx hf]
      by_cases hp : ((pySplit '\n' content).drop (idx + 1)).filterMap lineToPoint = []
      · left
        rw [if_pos hp]
      · right
        refine ⟨_, by rw [if_neg hp], rfl, ?_, ?_⟩
        · simpa using hp
        · intro r hr
          simp only [List.mem_map] at hr
          obtain ⟨p, _, rfl⟩ := hr
          rfl

/-- Claim C10: when the first surviving spectrum's x-values are pairwise
distinct, the output key column respects the relative order of the seed:
positions in the first spectrum's key list are nondecreasing along it. -/
theorem C10_seed_order (dec : String → List ℕ → Option String)
    (us : List RawUpload) (df s0 : DataFrame) (rest : List DataFrame)
    (hm : merge_txt_files dec us = some df)
    (hs : survivors dec us = s0 :: rest)
    (hnd : (keyColumn s0).Nodup) :
    (keyColumn df).Pairwise fun a b =>
      keyIdx (keyColumn s0) a ≤ keyIdx (keyColumn s0) b := by
  rcases hp : parsedList dec us with _ | ⟨⟨n0, df0⟩, prest⟩
  · rw [merge_eq_alignParsed, hp] at hm
    exact absurd hm (by simp [alignParsed])
  · have hsnd := parsedList_map_snd dec us
    rw [hp, hs] at hsnd
    simp only [List.map_cons] at hsnd
    injection hsnd with h1 _
    rw [merge_eq_alignParsed, hp] at hm
    simp only [alignParsed, Option.some.injEq] at hm
    rw [← hm]
    refine pairwise_keyColumn_foldl _ (fun k => Nat.le_refl _) _ _ ?_
    rw [keyColumn_seedOf, h1]
    exact pairwise_keyIdx_self (keyColumn s0) hnd

/-- Witness for C10 at `usA` (seed keys 400, 410 are distinct). -/
theorem C10_seed_order_witness :
    (keyColumn dfA).Pairwise fun a b =>
      keyIdx (keyColumn s0A) a ≤ keyIdx (keyColumn s0A) b :=
  C10_seed_order demoDec usA dfA s0A [s1A] (by decide) (by decide) (by decide)

end PlotTool
